import Mathlib

/-!
Shallow embedding of the waiting/retry/tour core of
`lib/galaxy/selenium/navigates_galaxy.py`.

External collaborators (the Selenium driver, the HTTP API, the filesystem)
are modelled as explicit parameters: the behaviour of each poll round or
invocation is supplied as a function from round number to an outcome, and
the embedded operations return a trace of the observable actions they
perform (clicks, sleeps, element waits, callback invocations) together
with their result.
-/

namespace NavigatesGalaxy

/-- Source: `WaitType = collections.namedtuple("WaitType", ["name", "default_length"])`.
Durations are modelled as rationals. -/
structure WaitType where
  name : String
  default_length : ℚ
deriving DecidableEq

/-- Source: `RETRY_DURING_TRANSITIONS_SLEEP_DEFAULT = .1` -/
def RETRY_DURING_TRANSITIONS_SLEEP_DEFAULT : ℚ := 1 / 10

/-- Source: `RETRY_DURING_TRANSITIONS_ATTEMPTS_DEFAULT = 10` -/
def RETRY_DURING_TRANSITIONS_ATTEMPTS_DEFAULT : ℕ := 10

namespace WAIT_TYPES

def UX_RENDER : WaitType := ⟨"ux_render", 1⟩

def UX_TRANSITION : WaitType := ⟨"ux_transition", 5⟩

def UX_POPUP : WaitType := ⟨"ux_popup", 15⟩

def DATABASE_OPERATION : WaitType := ⟨"database_operation", 10⟩

def JOB_COMPLETION : WaitType := ⟨"job_completion", 30⟩

def GIE_SPAWN : WaitType := ⟨"gie_spawn", 30⟩

def SHED_SEARCH : WaitType := ⟨"shed_search", 30⟩

def REPO_INSTALL : WaitType := ⟨"repo_install", 60⟩

def HISTORY_POLL : WaitType := ⟨"history_poll", 3⟩

end WAIT_TYPES

/-- The fixed catalog of wait types declared in class `WAIT_TYPES`. -/
def WAIT_TYPES_catalog : List WaitType :=
  [WAIT_TYPES.UX_RENDER, WAIT_TYPES.UX_TRANSITION, WAIT_TYPES.UX_POPUP,
   WAIT_TYPES.DATABASE_OPERATION, WAIT_TYPES.JOB_COMPLETION, WAIT_TYPES.GIE_SPAWN,
   WAIT_TYPES.SHED_SEARCH, WAIT_TYPES.REPO_INSTALL, WAIT_TYPES.HISTORY_POLL]

/-- Source: `DEFAULT_WAIT_TYPE = WAIT_TYPES.DATABASE_OPERATION` -/
def DEFAULT_WAIT_TYPE : WaitType := WAIT_TYPES.DATABASE_OPERATION

/-- Source: `wait_length`: `return wait_type.default_length * self.timeout_multiplier`.
The instance attribute `self.timeout_multiplier` is passed explicitly. -/
def wait_length (timeout_multiplier : ℚ) (wait_type : WaitType) : ℚ :=
  wait_type.default_length * timeout_multiplier

/-- Source: `timeout_for`: `return self.wait_length(wait_type)`. -/
def timeout_for (timeout_multiplier : ℚ) (wait_type : WaitType) : ℚ :=
  wait_length timeout_multiplier wait_type

/-! ## Transition classifier and retry executor -/

/-- Failure kinds raised by the Selenium driver, as distinguished by the
`has_driver` helpers imported at the top of the module. -/
inductive SeleniumException where
  | staleElement
  | notClickable
  | timeout
  | other (msg : String)
deriving DecidableEq

/-- Modelled from the spec: `exception_indicates_stale_element` lives in
`has_driver.py`, which is not part of the sources; per §4.1 it recognizes a
previously located element reference that is no longer valid. -/
def exception_indicates_stale_element : SeleniumException → Bool
  | .staleElement => true
  | _ => false

/-- Modelled from the spec: `exception_indicates_not_clickable` lives in
`has_driver.py`, which is not part of the sources; per §4.1 it recognizes an
element that exists but cannot currently be interacted with. -/
def exception_indicates_not_clickable : SeleniumException → Bool
  | .notClickable => true
  | _ => false

/-- Source: `exception_seems_to_indicate_transition`:
`return exception_indicates_stale_element(e) or exception_indicates_not_clickable(e)`. -/
def exception_seems_to_indicate_transition (e : SeleniumException) : Bool :=
  exception_indicates_stale_element e || exception_indicates_not_clickable e

/-- Observable outcome of `retry_call_during_transitions`: the final result
(the returned value or the re-raised exception), the number of invocations of
the wrapped callable `f`, and the list of inter-attempt sleep durations
performed (in order). -/
structure RetryOutcome (E A : Type) where
  result : Except E A
  calls : ℕ
  sleeps : List ℚ

/-- Loop body of `retry_call_during_transitions`.  The wrapped callable `f` is
modelled by the outcome of its `k`-th invocation (`k = 0, 1, ...`);
`previous_attempts` is the loop counter of the source:

    previous_attempts = 0
    while True:
        try:
            return f()
        except Exception as e:
            if previous_attempts > attempts:
                raise
            if not exception_check(e):
                raise
            time.sleep(sleep)
            previous_attempts += 1
-/
def retry_call_during_transitions_go (f : ℕ → Except E A) (exception_check : E → Bool)
    (sleep : ℚ) (attempts previous_attempts : ℕ) : RetryOutcome E A :=
  match f previous_attempts with
  | .ok a => ⟨.ok a, 1, []⟩
  | .error e =>
    if previous_attempts > attempts then
      ⟨.error e, 1, []⟩
    else if !exception_check e then
      ⟨.error e, 1, []⟩
    else
      let r := retry_call_during_transitions_go f exception_check sleep attempts
        (previous_attempts + 1)
      ⟨r.result, r.calls + 1, sleep :: r.sleeps⟩
termination_by attempts + 1 - previous_attempts
decreasing_by omega

/-- Source: `retry_call_during_transitions(f, attempts, sleep, exception_check)`,
starting from `previous_attempts = 0`. -/
def retry_call_during_transitions (f : ℕ → Except E A) (exception_check : E → Bool)
    (sleep : ℚ) (attempts : ℕ) : RetryOutcome E A :=
  retry_call_during_transitions_go f exception_check sleep attempts 0

/-! ## History state polling (`wait_for_history`) -/

/-- Body of the local `history_becomes_terminal(driver)` condition inside
`wait_for_history`, applied to the state string fetched from the API:

    if state not in ["running", "queued", "new", "ready"]:
        return state
    else:
        return None
-/
def history_becomes_terminal (state : String) : Option String :=
  if state ∈ ["running", "queued", "new", "ready"] then none else some state

/-- Source: `self.wait(timeout=timeout).until(history_becomes_terminal)`: the driver
re-evaluates the condition until it yields a non-`None` value or the deadline
passes.  The sequence of states observed on the successive evaluations that
fit within the timeout window is the list `states`; `none` models the
`TimeoutException` raised when every evaluation yielded `None`. -/
def until_first_terminal : List String → Option String
  | [] => none
  | state :: rest =>
    match history_becomes_terminal state with
    | some final_state => some final_state
    | none => until_first_terminal rest

/-- Source: `wait_for_history(assert_ok)`:

    final_state = self.wait(timeout=timeout).until(history_becomes_terminal)
    if assert_ok:
        assert final_state == "ok", final_state
    return final_state

`.error s` models a raised exception whose message is `s` (for the
`assert`, `AssertionError(final_state)`). -/
def wait_for_history (states : List String) (assert_ok : Bool) : Except String String :=
  match until_first_terminal states with
  | none => .error "TimeoutException"
  | some final_state =>
    if assert_ok then
      if final_state = "ok" then .ok final_state else .error final_state
    else .ok final_state

/-! ## Item visibility waiting (`history_item_wait_for` and friends) -/

/-- One record of `GET histories/{id}/contents`, restricted to the fields the
embedded code reads. -/
structure HistoryItem where
  id : ℕ
  hid : ℕ
  history_content_type : String
deriving DecidableEq

/-- The selector built by `history_panel_item_component` (non-beta branch):
`item(history_content_type=..., id=...)`. -/
structure ItemSelector where
  history_content_type : String
  id : ℕ
deriving DecidableEq

/-- Source: `hid_to_history_item`:

    contents = self.api_get(f"histories/{current_history_id}/contents")
    history_item = [d for d in contents if d["hid"] == hid][0]

`none` models the `IndexError` when no record has the hid. -/
def hid_to_history_item (contents : List HistoryItem) (hid : ℕ) : Option HistoryItem :=
  (contents.filter (fun d => d.hid == hid)).head?

/-- Source: `history_panel_item_component` (non-beta branch): builds the item selector
from the resolved history item. -/
def history_panel_item_component (history_item : HistoryItem) : ItemSelector :=
  ⟨history_item.history_content_type, history_item.id⟩

/-- Observable outcome of `history_item_wait_for`: `result` is `some element`
when `wait_for_visible` returned an element (modelled as a numeric handle) and
`none` when the final `TimeoutException` was re-raised; `refreshes` counts the
`history_panel_refresh_click()` calls performed; `polled` records, in order,
the selector passed to `wait_for_visible` on each poll round. -/
structure ItemWaitOutcome where
  result : Option ℕ
  refreshes : ℕ
  polled : List ItemSelector

/-- Loop of `history_item_wait_for`; the environment `visible` gives the
outcome of the `wait_for_visible` call on round `attempt` for a given
selector (`some element` = visible, `none` = `TimeoutException`):

    attempt = 0
    while True:
        try:
            rval = self.wait_for_visible(history_item_selector, wait_type=WAIT_TYPES.JOB_COMPLETION)
            break
        except self.TimeoutException:
            if attempt >= allowed_force_refreshes:
                raise
        attempt += 1
        self.history_panel_refresh_click()
    return rval
-/
def history_item_wait_for_go (visible : ℕ → ItemSelector → Option ℕ)
    (history_item_selector : ItemSelector) (allowed_force_refreshes attempt : ℕ) :
    ItemWaitOutcome :=
  match visible attempt history_item_selector with
  | some rval => ⟨some rval, 0, [history_item_selector]⟩
  | none =>
    if attempt ≥ allowed_force_refreshes then
      ⟨none, 0, [history_item_selector]⟩
    else
      let r := history_item_wait_for_go visible history_item_selector
        allowed_force_refreshes (attempt + 1)
      ⟨r.result, r.refreshes + 1, history_item_selector :: r.polled⟩
termination_by allowed_force_refreshes - attempt
decreasing_by omega

/-- Source: `history_item_wait_for(history_item_selector, allowed_force_refreshes)`,
starting from `attempt = 0`. -/
def history_item_wait_for (visible : ℕ → ItemSelector → Option ℕ)
    (history_item_selector : ItemSelector) (allowed_force_refreshes : ℕ) :
    ItemWaitOutcome :=
  history_item_wait_for_go visible history_item_selector allowed_force_refreshes 0

/-- Source: `history_panel_wait_for_hid_visible(hid, allowed_force_refreshes)`
(non-beta branch, after `wait_for_history_to_have_hid` has succeeded):

    history_item = self.hid_to_history_item(hid, current_history_id=current_history_id)
    history_item_selector = self.history_panel_item_component(history_item, hid=hid, ...)
    self.history_item_wait_for(history_item_selector, allowed_force_refreshes)

The environment's `contentsSeq r` is the content listing a fetch would return
after `r` forced refreshes have happened; the single fetch the code performs
reads `contentsSeq 0`.  `none` models the `IndexError` when the hid is
missing from the listing. -/
def history_panel_wait_for_hid_visible (contentsSeq : ℕ → List HistoryItem)
    (visible : ℕ → ItemSelector → Option ℕ) (hid allowed_force_refreshes : ℕ) :
    Option ItemWaitOutcome :=
  match hid_to_history_item (contentsSeq 0) hid with
  | none => none
  | some history_item =>
    some (history_item_wait_for visible (history_panel_item_component history_item)
      allowed_force_refreshes)

/-! ## Tour interpreter (`run_tour`, `run_tour_step`) -/

/-- One step of a tour script, restricted to the keys `run_tour`/`run_tour_step`
read: `title`, `preclick`, `element`, `textinsert`, `postclick`. -/
structure TourStep where
  title : Option String
  preclick : List String
  element : Option String
  textinsert : Option String
  postclick : List String
deriving DecidableEq

/-- Observable actions performed while interpreting a tour.  `click` and
`waitForElement` record the timeout (seconds) of the underlying wait;
`sleep` records the duration of a `time.sleep`. -/
inductive TourAction where
  | sleep (seconds : ℚ)
  | click (selector : String) (timeout : ℚ)
  | waitForElement (selector : String) (timeout : ℚ)
  | sendKeys (text : String)
  | callback (step_index : ℕ)
deriving DecidableEq

/-- Trace of a (partial) tour execution: the actions performed in order, and
`some msg` when execution aborted with an exception. -/
structure TourTrace where
  actions : List TourAction
  error : Option String
deriving DecidableEq

/-- Source: `run_tour_step(step, step_index, tour_callback)`.  Clicks go through
`_tour_wait_for_and_click_element` → `tour_wait_for_clickable_element`, and the
element wait through `tour_wait_for_element_present`; both use
`timeout_for(wait_type=WAIT_TYPES.JOB_COMPLETION)`.  When `textinsert` is set
but no `element` was located, `element.send_keys(textinsert)` hits the unbound
local variable `element` and raises before the callback runs:

    preclick = step.get("preclick", [])
    for preclick_selector in preclick:
        self._tour_wait_for_and_click_element(preclick_selector)
    element_str = step.get("element", None)
    if element_str is not None:
        element = self.tour_wait_for_element_present(element_str)
        assert element is not None
    textinsert = step.get("textinsert", None)
    if textinsert is not None:
        element.send_keys(textinsert)
    tour_callback.handle_step(step, step_index)
    postclick = step.get("postclick", [])
    for postclick_selector in postclick:
        self._tour_wait_for_and_click_element(postclick_selector)
-/
def run_tour_step (timeout_multiplier : ℚ) (step : TourStep) (step_index : ℕ) :
    TourTrace :=
  let timeout := timeout_for timeout_multiplier WAIT_TYPES.JOB_COMPLETION
  let pre := step.preclick.map (fun preclick_selector =>
    TourAction.click preclick_selector timeout)
  let elementWait : List TourAction :=
    match step.element with
    | some element_str => [TourAction.waitForElement element_str timeout]
    | none => []
  let post := step.postclick.map (fun postclick_selector =>
    TourAction.click postclick_selector timeout)
  match step.textinsert with
  | some textinsert =>
    match step.element with
    | none =>
      ⟨pre ++ elementWait, some "UnboundLocalError: local variable element"⟩
    | some _ =>
      ⟨pre ++ elementWait ++ [TourAction.sendKeys textinsert,
        TourAction.callback step_index] ++ post, none⟩
  | none =>
    ⟨pre ++ elementWait ++ [TourAction.callback step_index] ++ post, none⟩

/-- Actions of `if title in sleep_on_steps: time.sleep(sleep_on_steps[title])`:
one `time.sleep` of the raw configured duration when the title is a key of
the `sleep_on_steps` dict, nothing otherwise. -/
def sleep_on_actions (sleep_on_steps : List (String × ℚ)) : Option String → List TourAction
  | some t =>
    match sleep_on_steps.lookup t with
    | some seconds => [TourAction.sleep seconds]
    | none => []
  | none => []

/-- Loop of `run_tour` over the steps, carrying the `enumerate` index `i`:

    for i, step in enumerate(steps):
        title = step.get("title", None)
        skip = False
        if skip_steps:
            for skip_step in skip_steps:
                if title == skip_step:
                    skip = True
        if title in sleep_on_steps:
            time.sleep(sleep_on_steps[title])
        if skip:
            continue
        self.run_tour_step(step, i, tour_callback)

An exception raised by `run_tour_step` aborts the whole loop. -/
def run_tour_go (timeout_multiplier : ℚ) (skip_steps : List String)
    (sleep_on_steps : List (String × ℚ)) : List TourStep → ℕ → TourTrace
  | [], _ => ⟨[], none⟩
  | step :: rest, i =>
    let title := step.title
    let skip := skip_steps.any (fun skip_step => title == some skip_step)
    let sleepActions : List TourAction := sleep_on_actions sleep_on_steps title
    if skip then
      let r := run_tour_go timeout_multiplier skip_steps sleep_on_steps rest (i + 1)
      ⟨sleepActions ++ r.actions, r.error⟩
    else
      let sr := run_tour_step timeout_multiplier step i
      match sr.error with
      | some e => ⟨sleepActions ++ sr.actions, some e⟩
      | none =>
        let r := run_tour_go timeout_multiplier skip_steps sleep_on_steps rest (i + 1)
        ⟨sleepActions ++ sr.actions ++ r.actions, r.error⟩

/-- Source: `run_tour(path, skip_steps, sleep_on_steps, tour_callback)` after the tour
document at `path` has been loaded and its `steps` list extracted. -/
def run_tour (timeout_multiplier : ℚ) (steps : List TourStep)
    (skip_steps : List String) (sleep_on_steps : List (String × ℚ)) : TourTrace :=
  run_tour_go timeout_multiplier skip_steps sleep_on_steps steps 0

/-- The step indices passed to `tour_callback.handle_step`, in order. -/
def callback_indices : List TourAction → List ℕ
  | [] => []
  | TourAction.callback i :: rest => i :: callback_indices rest
  | _ :: rest => callback_indices rest

/-- The duration of the timed suspension or timed wait an action performs, if
any: `sleep` durations and `click`/`waitForElement` timeouts. -/
def timed_duration : TourAction → Option ℚ
  | .sleep seconds => some seconds
  | .click _ timeout => some timeout
  | .waitForElement _ timeout => some timeout
  | .sendKeys _ => none
  | .callback _ => none

/-! ## Theorems -/

theorem until_first_terminal_of_prefix_active (pre rest : List String) (t : String)
    (hpre : ∀ s ∈ pre, s ∈ ["running", "queued", "new", "ready"])
    (ht : t ∉ ["running", "queued", "new", "ready"]) :
    until_first_terminal (pre ++ t :: rest) = some t := by
  induction pre with
  | nil =>
    simp [until_first_terminal, history_becomes_terminal, ht]
  | cons s pre ih =>
    have hs := hpre s (List.mem_cons_self s pre)
    simp only [List.cons_append, until_first_terminal, history_becomes_terminal, if_pos hs]
    exact ih (fun x hx => hpre x (List.mem_cons_of_mem s hx))

/-- C9: `wait_length` is linear in the multiplier: resolving with multiplier
`2 * m` yields exactly twice the duration resolved with multiplier `m`, and in
general `wait_length m w = w.default_length * m`. -/
theorem wait_length_linear_in_multiplier (wait_type : WaitType) (m : ℚ) :
    wait_length (2 * m) wait_type = 2 * wait_length m wait_type ∧
    wait_length m wait_type = wait_type.default_length * m := by
  refine ⟨?_, rfl⟩
  simp only [wait_length]
  ring

/-- C4: `wait_for_history` returns the first polled state outside
`{"running", "queued", "new", "ready"}`; on the concrete sequence
`["new", "queued", "running", "ok"]` it returns `"ok"`; and with
`assert_ok = true` and a terminal state other than `"ok"` it raises an
`AssertionError` whose message is the observed terminal state. -/
theorem wait_for_history_terminal_state (pre rest : List String) (t : String)
    (hpre : ∀ s ∈ pre, s ∈ ["running", "queued", "new", "ready"])
    (ht : t ∉ ["running", "queued", "new", "ready"]) :
    wait_for_history (pre ++ t :: rest) false = .ok t ∧
    (t = "ok" → wait_for_history (pre ++ t :: rest) true = .ok t) ∧
    (t ≠ "ok" → wait_for_history (pre ++ t :: rest) true = .error t) ∧
    wait_for_history ["new", "queued", "running", "ok"] true = .ok "ok" := by
  have hu := until_first_terminal_of_prefix_active pre rest t hpre ht
  refine ⟨?_, ?_, ?_, by rfl⟩
  · simp [wait_for_history, hu]
  · intro hok
    subst hok
    simp [wait_for_history, hu]
  · intro hnok
    simp [wait_for_history, hu, hnok]

/-- Witness for C4 at the polled sequence `["new", "queued", "running", "error"]`. -/
theorem wait_for_history_terminal_state_witness :
    wait_for_history ["new", "queued", "running", "error"] false = .ok "error" ∧
    wait_for_history ["new", "queued", "running", "error"] true = .error "error" := by
  have h := wait_for_history_terminal_state ["new", "queued", "running"] [] "error"
    (by decide) (by decide)
  exact ⟨h.1, h.2.2.1 (by decide)⟩

/-- C5: when the first invocation of the wrapped callable raises an error the
classifier rejects, `retry_call_during_transitions` re-raises that exact error
with exactly one invocation and no inter-attempt sleep, for every attempts
budget and sleep setting. -/
theorem retry_call_nontransient_raises_immediately {E A : Type}
    (f : ℕ → Except E A) (exception_check : E → Bool) (sleep : ℚ) (attempts : ℕ)
    (e : E) (hf : f 0 = .error e) (hcheck : exception_check e = false) :
    retry_call_during_transitions f exception_check sleep attempts =
      ⟨.error e, 1, []⟩ := by
  rw [retry_call_during_transitions, retry_call_during_transitions_go, hf]
  simp [hcheck]

/-- Witness for C5: a `timeout` error is not a transition error, so it is
re-raised at once. -/
theorem retry_call_nontransient_raises_immediately_witness :
    retry_call_during_transitions
        (fun _ => (.error SeleniumException.timeout : Except SeleniumException ℕ))
        exception_seems_to_indicate_transition (1 / 10) 10 =
      ⟨.error SeleniumException.timeout, 1, []⟩ :=
  retry_call_nontransient_raises_immediately _ _ _ _ _ rfl rfl

theorem retry_go_all_transient {E A : Type} (f : ℕ → Except E A)
    (exception_check : E → Bool) (sleep : ℚ) (attempts : ℕ) (err : ℕ → E) :
    ∀ d previous_attempts, previous_attempts + d = attempts + 1 →
    (∀ k, previous_attempts ≤ k → k ≤ attempts + 1 →
      f k = .error (err k) ∧ exception_check (err k) = true) →
    retry_call_during_transitions_go f exception_check sleep attempts previous_attempts =
      ⟨.error (err (attempts + 1)), d + 1, List.replicate d sleep⟩ := by
  intro d
  induction d with
  | zero =>
    intro prev hsum hall
    obtain ⟨hf, _⟩ := hall prev le_rfl (by omega)
    have hprev : prev = attempts + 1 := by omega
    subst hprev
    rw [retry_call_during_transitions_go, hf]
    have hgt : attempts + 1 > attempts := by omega
    simp [hgt]
  | succ d ih =>
    intro prev hsum hall
    obtain ⟨hf, hc⟩ := hall prev le_rfl (by omega)
    rw [retry_call_during_transitions_go, hf]
    have hle : ¬ prev > attempts := by omega
    rw [ih (prev + 1) (by omega) (fun k hk1 hk2 => hall k (by omega) hk2)]
    simp [hle, hc, List.replicate_succ]

theorem retry_go_succeeds {E A : Type} (f : ℕ → Except E A)
    (exception_check : E → Bool) (sleep : ℚ) (attempts : ℕ) (err : ℕ → E) :
    ∀ d previous_attempts a, f (previous_attempts + d) = .ok a →
    previous_attempts + d ≤ attempts + 1 →
    (∀ k, previous_attempts ≤ k → k < previous_attempts + d →
      f k = .error (err k) ∧ exception_check (err k) = true) →
    (retry_call_during_transitions_go f exception_check sleep attempts
      previous_attempts).result = .ok a := by
  intro d
  induction d with
  | zero =>
    intro prev a hok _ _
    rw [retry_call_during_transitions_go]
    rw [Nat.add_zero] at hok
    rw [hok]
  | succ d ih =>
    intro prev a hok hle hall
    obtain ⟨hf, hc⟩ := hall prev le_rfl (by omega)
    rw [retry_call_during_transitions_go, hf]
    have hgt : ¬ prev > attempts := by omega
    have hok' : f (prev + 1 + d) = .ok a := by
      have heq : prev + 1 + d = prev + (d + 1) := by omega
      rw [heq]
      exact hok
    have hres := ih (prev + 1) a hok' (by omega)
      (fun k hk1 hk2 => hall k (by omega) (by omega))
    simp [hgt, hc, hres]

/-- C6: when the wrapped callable raises a classifier-eligible error on every
invocation, `retry_call_during_transitions` with attempts budget `N` invokes it
exactly `N + 2` times, sleeps once after each of the first `N + 1` failures,
and re-raises the last error; and it succeeds whenever one of the first
`N + 2` invocations succeeds (the earlier ones failing eligibly). -/
theorem retry_call_transient_budget {E A : Type} (f : ℕ → Except E A)
    (exception_check : E → Bool) (sleep : ℚ) (N : ℕ) (err : ℕ → E) :
    ((∀ k, k ≤ N + 1 → f k = .error (err k) ∧ exception_check (err k) = true) →
      retry_call_during_transitions f exception_check sleep N =
        ⟨.error (err (N + 1)), N + 2, List.replicate (N + 1) sleep⟩) ∧
    (∀ j a, j ≤ N + 1 → f j = .ok a →
      (∀ k, k < j → f k = .error (err k) ∧ exception_check (err k) = true) →
      (retry_call_during_transitions f exception_check sleep N).result = .ok a) := by
  constructor
  · intro hall
    exact retry_go_all_transient f exception_check sleep N err (N + 1) 0 (by omega)
      (fun k _ hk2 => hall k hk2)
  · intro j a hj hok hall
    exact retry_go_succeeds f exception_check sleep N err j 0 a
      (by simpa using hok) (by omega) (fun k _ hk2 => hall k (by omega))

/-- Witness for C6 with `N = 0`: a callable that always raises a stale-element
error is invoked twice with one sleep; a callable that fails once then
succeeds returns the success. -/
theorem retry_call_transient_budget_witness :
    retry_call_during_transitions
        (fun _ => (.error SeleniumException.staleElement : Except SeleniumException ℕ))
        exception_seems_to_indicate_transition (1 / 10) 0 =
      ⟨.error SeleniumException.staleElement, 2, List.replicate 1 (1 / 10)⟩ ∧
    (retry_call_during_transitions
        (fun k => if k = 0 then .error SeleniumException.staleElement
          else (.ok 7 : Except SeleniumException ℕ))
        exception_seems_to_indicate_transition (1 / 10) 0).result = .ok 7 := by
  constructor
  · exact (retry_call_transient_budget _ _ _ 0 (fun _ => SeleniumException.staleElement)).1
      (fun k _ => ⟨rfl, rfl⟩)
  · exact (retry_call_transient_budget _ _ _ 0 (fun _ => SeleniumException.staleElement)).2
      1 7 (by omega) rfl
      (fun k hk => by
        have hk0 : k = 0 := by omega
        subst hk0
        exact ⟨rfl, rfl⟩)

theorem item_wait_go_success (visible : ℕ → ItemSelector → Option ℕ)
    (sel : ItemSelector) (allowed : ℕ) :
    ∀ k attempt el, (∀ j, j < k → visible (attempt + j) sel = none) →
    visible (attempt + k) sel = some el → attempt + k ≤ allowed →
    (history_item_wait_for_go visible sel allowed attempt).result = some el ∧
    (history_item_wait_for_go visible sel allowed attempt).refreshes = k := by
  intro k
  induction k with
  | zero =>
    intro attempt el _ hvis _
    rw [Nat.add_zero] at hvis
    rw [history_item_wait_for_go, hvis]
    exact ⟨rfl, rfl⟩
  | succ k ih =>
    intro attempt el hnone hvis hle
    have h0 : visible attempt sel = none := by
      have := hnone 0 (by omega)
      rwa [Nat.add_zero] at this
    rw [history_item_wait_for_go, h0]
    have hlt : ¬ attempt ≥ allowed := by omega
    have hvis' : visible (attempt + 1 + k) sel = some el := by
      have heq : attempt + 1 + k = attempt + (k + 1) := by omega
      rw [heq]
      exact hvis
    have hnone' : ∀ j, j < k → visible (attempt + 1 + j) sel = none := by
      intro j hj
      have heq : attempt + 1 + j = attempt + (j + 1) := by omega
      rw [heq]
      exact hnone (j + 1) (by omega)
    have hrec := ih (attempt + 1) el hnone' hvis' (by omega)
    simp [hlt, hrec.1, hrec.2]

theorem item_wait_go_timeout (visible : ℕ → ItemSelector → Option ℕ)
    (sel : ItemSelector) (allowed : ℕ) :
    ∀ d attempt, attempt + d = allowed →
    (∀ j, attempt ≤ j → j ≤ allowed → visible j sel = none) →
    (history_item_wait_for_go visible sel allowed attempt).result = none ∧
    (history_item_wait_for_go visible sel allowed attempt).refreshes = d := by
  intro d
  induction d with
  | zero =>
    intro attempt hsum hall
    have h0 : visible attempt sel = none := hall attempt le_rfl (by omega)
    rw [history_item_wait_for_go, h0]
    have hge : attempt ≥ allowed := by omega
    simp [hge]
  | succ d ih =>
    intro attempt hsum hall
    have h0 : visible attempt sel = none := hall attempt le_rfl (by omega)
    rw [history_item_wait_for_go, h0]
    have hlt : ¬ attempt ≥ allowed := by omega
    have hrec := ih (attempt + 1) (by omega) (fun j hj1 hj2 => hall j (by omega) hj2)
    simp [hlt, hrec.1, hrec.2]

theorem item_wait_go_refreshes_le (visible : ℕ → ItemSelector → Option ℕ)
    (sel : ItemSelector) :
    ∀ d allowed attempt, allowed - attempt ≤ d →
    (history_item_wait_for_go visible sel allowed attempt).refreshes ≤ allowed - attempt := by
  intro d
  induction d with
  | zero =>
    intro allowed attempt hd
    rw [history_item_wait_for_go]
    match hvis : visible attempt sel with
    | some el => simp
    | none =>
      have hge : attempt ≥ allowed := by omega
      simp [hge]
  | succ d ih =>
    intro allowed attempt hd
    rw [history_item_wait_for_go]
    match hvis : visible attempt sel with
    | some el => simp
    | none =>
      by_cases hge : attempt ≥ allowed
      · simp [hge]
      · have hrec := ih allowed (attempt + 1) (by omega)
        simp [hge]
        omega

/-- C1: with `allowed_force_refreshes = n`, `history_item_wait_for` triggers
at most `n` forced refreshes: if the element becomes visible on poll round
`k + 1` for some `k ≤ n` it returns that element having clicked refresh
exactly `k` times, and if it never becomes visible it clicks refresh exactly
`n` times and then re-raises the `TimeoutException`. -/
theorem history_item_wait_for_refresh_budget (visible : ℕ → ItemSelector → Option ℕ)
    (sel : ItemSelector) (n : ℕ) :
    (∀ k el, k ≤ n → (∀ j, j < k → visible j sel = none) → visible k sel = some el →
      (history_item_wait_for visible sel n).result = some el ∧
      (history_item_wait_for visible sel n).refreshes = k) ∧
    ((∀ j, j ≤ n → visible j sel = none) →
      (history_item_wait_for visible sel n).result = none ∧
      (history_item_wait_for visible sel n).refreshes = n) ∧
    (history_item_wait_for visible sel n).refreshes ≤ n := by
  refine ⟨?_, ?_, ?_⟩
  · intro k el hk hnone hvis
    exact item_wait_go_success visible sel n k 0 el
      (fun j hj => by simpa using hnone j hj) (by simpa using hvis) (by omega)
  · intro hall
    exact item_wait_go_timeout visible sel n n 0 (by omega)
      (fun j _ hj => hall j hj)
  · have := item_wait_go_refreshes_le visible sel n n 0 (by omega)
    simpa using this

/-- Witness for C1 with `n = 1`: an element that appears on the second poll
round is returned after exactly one refresh; an element that never appears
leads to exactly one refresh and a re-raised timeout. -/
theorem history_item_wait_for_refresh_budget_witness :
    (history_item_wait_for (fun j _ => if j = 1 then some 7 else none)
      ⟨"dataset", 5⟩ 1).result = some 7 ∧
    (history_item_wait_for (fun j _ => if j = 1 then some 7 else none)
      ⟨"dataset", 5⟩ 1).refreshes = 1 ∧
    (history_item_wait_for (fun _ _ => none) ⟨"dataset", 5⟩ 1).result = none ∧
    (history_item_wait_for (fun _ _ => none) ⟨"dataset", 5⟩ 1).refreshes = 1 := by
  have h1 := (history_item_wait_for_refresh_budget
    (fun j _ => if j = 1 then some 7 else none) ⟨"dataset", 5⟩ 1).1 1 7
    (by omega)
    (fun j hj => by
      have hj0 : j = 0 := by omega
      subst hj0
      rfl)
    rfl
  have h2 := (history_item_wait_for_refresh_budget
    (fun _ _ => none) ⟨"dataset", 5⟩ 1).2.1 (fun j _ => rfl)
  exact ⟨h1.1, h1.2, h2.1, h2.2⟩

theorem item_wait_go_polled (visible : ℕ → ItemSelector → Option ℕ)
    (sel : ItemSelector) :
    ∀ d allowed attempt, allowed - attempt ≤ d →
    ∀ s ∈ (history_item_wait_for_go visible sel allowed attempt).polled, s = sel := by
  intro d
  induction d with
  | zero =>
    intro allowed attempt hd s hs
    rw [history_item_wait_for_go] at hs
    cases hvis : visible attempt sel with
    | some el =>
      simp [hvis] at hs
      exact hs
    | none =>
      have hge : attempt ≥ allowed := by omega
      simp [hvis, hge] at hs
      exact hs
  | succ d ih =>
    intro allowed attempt hd s hs
    rw [history_item_wait_for_go] at hs
    cases hvis : visible attempt sel with
    | some el =>
      simp [hvis] at hs
      exact hs
    | none =>
      by_cases hge : attempt ≥ allowed
      · simp [hvis, hge] at hs
        exact hs
      · simp [hvis, hge] at hs
        rcases hs with hs | hs
        · exact hs
        · exact ih allowed (attempt + 1) (by omega) s hs

/-- C2, as stated, is false on the code: it claims that on every poll round
`r` the selector polled is derived from a content listing fetched after the
`r`-th refresh.  In fact `history_panel_wait_for_hid_visible` resolves the
hid to an internal id once, before the poll loop, and keeps polling that
selector after forced refreshes.  Counterexample: the listing maps hid 3 to
internal id 5 before the refresh and to internal id 9 after it, yet round 1
still polls the selector with id 5. -/
theorem hid_resolution_not_redone_counterexample :
    ¬ (∀ (contentsSeq : ℕ → List HistoryItem) (visible : ℕ → ItemSelector → Option ℕ)
        (hid allowed : ℕ) (res : ItemWaitOutcome),
        history_panel_wait_for_hid_visible contentsSeq visible hid allowed = some res →
        ∀ r, ∀ hr : r < res.polled.length,
          ∃ item, hid_to_history_item (contentsSeq r) hid = some item ∧
            res.polled.get ⟨r, hr⟩ = history_panel_item_component item) := by
  intro h
  have hcomp : history_panel_wait_for_hid_visible
      (fun r => if r = 0 then [⟨5, 3, "dataset"⟩] else [⟨9, 3, "dataset"⟩])
      (fun _ _ => none) 3 1 =
      some ⟨none, 1, [⟨"dataset", 5⟩, ⟨"dataset", 5⟩]⟩ := by
    simp [history_panel_wait_for_hid_visible, hid_to_history_item,
      history_panel_item_component, history_item_wait_for, history_item_wait_for_go]
  obtain ⟨item, hitem, hsel⟩ := h _ _ 3 1 _ hcomp 1 (by simp)
  rw [show hid_to_history_item
      ((fun r => if r = 0 then [⟨5, 3, "dataset"⟩] else [⟨9, 3, "dataset"⟩]) 1) 3 =
      some ⟨9, 3, "dataset"⟩ from rfl] at hitem
  injection hitem with hitem9
  rw [← hitem9] at hsel
  simp [history_panel_item_component] at hsel

/-- C2 amended: the hid→internal-id resolution happens once per invocation of
`history_panel_wait_for_hid_visible`, before the poll loop; every poll round,
including every round after a forced refresh, polls the selector built from
that single initial resolution (the content listing is never re-fetched
inside the loop). -/
theorem hid_resolution_cached_within_invocation (contentsSeq : ℕ → List HistoryItem)
    (visible : ℕ → ItemSelector → Option ℕ) (hid allowed : ℕ) (item : HistoryItem)
    (hres : hid_to_history_item (contentsSeq 0) hid = some item) :
    (history_panel_wait_for_hid_visible contentsSeq visible hid allowed).isSome = true ∧
    ∀ res, history_panel_wait_for_hid_visible contentsSeq visible hid allowed = some res →
      ∀ sel ∈ res.polled, sel = history_panel_item_component item := by
  rw [history_panel_wait_for_hid_visible, hres]
  refine ⟨rfl, ?_⟩
  intro res hres' sel hsel
  injection hres' with hres'
  rw [← hres'] at hsel
  exact item_wait_go_polled visible (history_panel_item_component item)
    allowed allowed 0 (by omega) sel hsel

/-- Witness for the amended C2 at a singleton listing. -/
theorem hid_resolution_cached_within_invocation_witness :
    (history_panel_wait_for_hid_visible (fun _ => [⟨5, 3, "dataset"⟩])
      (fun _ _ => none) 3 0).isSome = true ∧
    (⟨"dataset", 5⟩ : ItemSelector) = history_panel_item_component ⟨5, 3, "dataset"⟩ := by
  have h := hid_resolution_cached_within_invocation (fun _ => [⟨5, 3, "dataset"⟩])
    (fun _ _ => none) 3 0 ⟨5, 3, "dataset"⟩ rfl
  refine ⟨h.1, h.2 ⟨none, 0, [⟨"dataset", 5⟩]⟩ ?_ ⟨"dataset", 5⟩ ?_⟩
  · simp [history_panel_wait_for_hid_visible, hid_to_history_item,
      history_panel_item_component, history_item_wait_for, history_item_wait_for_go]
  · simp

theorem lookup_mem {t : String} {d : ℚ} :
    ∀ sos : List (String × ℚ), sos.lookup t = some d → (t, d) ∈ sos := by
  intro sos
  induction sos with
  | nil => intro h; simp [List.lookup] at h
  | cons p rest ih =>
    obtain ⟨k, v⟩ := p
    intro h
    rw [List.lookup] at h
    cases hbeq : (t == k) with
    | true =>
      rw [hbeq] at h
      injection h with h
      subst h
      have htk : t = k := by simpa using hbeq
      subst htk
      exact List.mem_cons_self _ _
    | false =>
      rw [hbeq] at h
      exact List.mem_cons_of_mem _ (ih h)

theorem sleep_on_actions_sleeps (sleep_on_steps : List (String × ℚ)) (title : Option String) :
    ∀ a ∈ sleep_on_actions sleep_on_steps title,
      ∃ p ∈ sleep_on_steps, a = TourAction.sleep p.2 := by
  cases title with
  | none => simp [sleep_on_actions]
  | some t =>
    cases hl : sleep_on_steps.lookup t with
    | none => simp [sleep_on_actions, hl]
    | some d =>
      intro a ha
      simp [sleep_on_actions, hl] at ha
      exact ⟨(t, d), lookup_mem sleep_on_steps hl, by rw [ha]⟩

theorem callback_indices_append (l1 l2 : List TourAction) :
    callback_indices (l1 ++ l2) = callback_indices l1 ++ callback_indices l2 := by
  induction l1 with
  | nil => rfl
  | cons a l1 ih => cases a <;> simp [callback_indices, ih]

theorem callback_indices_clicks (l : List String) (timeout : ℚ) :
    callback_indices (l.map (fun s => TourAction.click s timeout)) = [] := by
  induction l with
  | nil => rfl
  | cons s l ih => simpa [callback_indices] using ih

theorem callback_indices_sleep_on (sleep_on_steps : List (String × ℚ))
    (title : Option String) :
    callback_indices (sleep_on_actions sleep_on_steps title) = [] := by
  cases title with
  | none => rfl
  | some t =>
    cases hl : sleep_on_steps.lookup t with
    | none => simp [sleep_on_actions, hl, callback_indices]
    | some d => simp [sleep_on_actions, hl, callback_indices]

theorem run_tour_step_ok (m : ℚ) (step : TourStep) (i : ℕ)
    (h : step.textinsert.isSome → step.element.isSome) :
    (run_tour_step m step i).error = none ∧
    callback_indices (run_tour_step m step i).actions = [i] := by
  cases ht : step.textinsert with
  | none =>
    cases he : step.element with
    | none =>
      simp [run_tour_step, ht, he, callback_indices_append, callback_indices_clicks,
        callback_indices]
    | some sel =>
      simp [run_tour_step, ht, he, callback_indices_append, callback_indices_clicks,
        callback_indices]
  | some txt =>
    have hsome : step.element.isSome := h (by rw [ht]; rfl)
    obtain ⟨sel, he⟩ := Option.isSome_iff_exists.mp hsome
    simp [run_tour_step, ht, he, callback_indices_append, callback_indices_clicks,
      callback_indices]

theorem skipped_any_true (step : TourStep) (skip_steps : List String) (t : String)
    (ht : step.title = some t) (hmem : t ∈ skip_steps) :
    skip_steps.any (fun skip_step => step.title == some skip_step) = true := by
  rw [List.any_eq_true]
  exact ⟨t, hmem, by simp [ht]⟩

theorem not_skipped_any_false (step : TourStep) (skip_steps : List String)
    (h : ∀ t, step.title = some t → t ∉ skip_steps) :
    skip_steps.any (fun skip_step => step.title == some skip_step) = false := by
  rw [List.any_eq_false]
  intro x hx
  cases hst : step.title with
  | none => simp
  | some t =>
    have hne : t ∉ skip_steps := h t hst
    simp only [beq_iff_eq, Option.some.injEq]
    intro heq
    exact hne (heq ▸ hx)

/-- C3, as stated, is false on the code: it claims a step whose title is in
`skip_steps` triggers none of the step's actions, the sleep override
included.  In `run_tour` the `sleep_on_steps` sleep happens before the skip
check, so a skipped step whose title has a sleep override still sleeps.
Counterexample: title `"a"` is both skipped and mapped to a 2-second sleep;
the run still performs `sleep 2`. -/
theorem run_tour_skip_counterexample :
    ¬ (∀ (m : ℚ) (skip_steps : List String) (sleep_on_steps : List (String × ℚ))
        (step : TourStep) (rest : List TourStep) (i : ℕ) (t : String),
        step.title = some t → t ∈ skip_steps →
        run_tour_go m skip_steps sleep_on_steps (step :: rest) i =
          run_tour_go m skip_steps sleep_on_steps rest (i + 1)) := by
  intro h
  have hc := h 1 ["a"] [("a", 2)] ⟨some "a", [], none, none, []⟩ [] 0 "a" rfl
    (List.mem_cons_self _ _)
  have : run_tour_go 1 ["a"] [("a", 2)] [⟨some "a", [], none, none, []⟩] 0 ≠
      run_tour_go 1 ["a"] [("a", 2)] [] 1 := by
    simp [run_tour_go, sleep_on_actions, List.lookup]
  exact this hc

/-- C3 amended: a step whose title is in `skip_steps` contributes none of the
step's own actions (no preclick, no element wait, no text insert, no
callback, no postclick) and the remaining steps run with the original index
advanced; however, because the sleep-override check precedes the skip check,
the skipped step still contributes its `sleep_on_steps` sleep when its title
has an override. -/
theorem run_tour_skip_contributes_only_sleep (m : ℚ) (skip_steps : List String)
    (sleep_on_steps : List (String × ℚ)) (step : TourStep) (rest : List TourStep)
    (i : ℕ) (t : String) (htitle : step.title = some t) (hskip : t ∈ skip_steps) :
    run_tour_go m skip_steps sleep_on_steps (step :: rest) i =
      ⟨sleep_on_actions sleep_on_steps step.title ++
        (run_tour_go m skip_steps sleep_on_steps rest (i + 1)).actions,
       (run_tour_go m skip_steps sleep_on_steps rest (i + 1)).error⟩ ∧
    (∀ a ∈ sleep_on_actions sleep_on_steps step.title,
      ∃ p ∈ sleep_on_steps, a = TourAction.sleep p.2) := by
  refine ⟨?_, sleep_on_actions_sleeps sleep_on_steps step.title⟩
  have hany := skipped_any_true step skip_steps t htitle hskip
  simp [run_tour_go, hany]

/-- Witness for the amended C3: a skipped, sleep-overridden one-step tour. -/
theorem run_tour_skip_contributes_only_sleep_witness :
    run_tour_go 1 ["a"] [("a", 2)] [⟨some "a", [], none, none, []⟩] 0 =
      ⟨sleep_on_actions [("a", 2)] (some "a") ++
        (run_tour_go 1 ["a"] [("a", 2)] [] 1).actions,
       (run_tour_go 1 ["a"] [("a", 2)] [] 1).error⟩ :=
  (run_tour_skip_contributes_only_sleep 1 ["a"] [("a", 2)]
    ⟨some "a", [], none, none, []⟩ [] 0 "a" rfl (List.mem_cons_self _ _)).1

/-- C7: in a 3-step tour where only the middle step's title is skipped, the
first and third steps execute all their sub-actions in order and the callback
is invoked exactly twice, with the original pre-skip indices 0 and 2. -/
theorem run_tour_skip_middle_step_indices (m : ℚ) (s0 s1 s2 : TourStep)
    (skip_steps : List String) (sleep_on_steps : List (String × ℚ)) (t1 : String)
    (h1t : s1.title = some t1) (h1skip : t1 ∈ skip_steps)
    (h0 : ∀ t, s0.title = some t → t ∉ skip_steps)
    (h2 : ∀ t, s2.title = some t → t ∉ skip_steps)
    (h0wf : s0.textinsert.isSome → s0.element.isSome)
    (h2wf : s2.textinsert.isSome → s2.element.isSome) :
    (run_tour m [s0, s1, s2] skip_steps sleep_on_steps).actions =
      sleep_on_actions sleep_on_steps s0.title ++ (run_tour_step m s0 0).actions ++
      sleep_on_actions sleep_on_steps s1.title ++ sleep_on_actions sleep_on_steps s2.title ++
      (run_tour_step m s2 2).actions ∧
    callback_indices (run_tour m [s0, s1, s2] skip_steps sleep_on_steps).actions =
      [0, 2] ∧
    (run_tour m [s0, s1, s2] skip_steps sleep_on_steps).error = none := by
  have hany0 := not_skipped_any_false s0 skip_steps h0
  have hany1 := skipped_any_true s1 skip_steps t1 h1t h1skip
  have hany2 := not_skipped_any_false s2 skip_steps h2
  obtain ⟨herr0, hcb0⟩ := run_tour_step_ok m s0 0 h0wf
  obtain ⟨herr2, hcb2⟩ := run_tour_step_ok m s2 2 h2wf
  have hactions : (run_tour m [s0, s1, s2] skip_steps sleep_on_steps).actions =
      sleep_on_actions sleep_on_steps s0.title ++ (run_tour_step m s0 0).actions ++
      sleep_on_actions sleep_on_steps s1.title ++ sleep_on_actions sleep_on_steps s2.title ++
      (run_tour_step m s2 2).actions := by
    simp [run_tour, run_tour_go, hany0, hany1, hany2, herr0, herr2]
  have herror : (run_tour m [s0, s1, s2] skip_steps sleep_on_steps).error = none := by
    simp [run_tour, run_tour_go, hany0, hany1, hany2, herr0, herr2]
  refine ⟨hactions, ?_, herror⟩
  rw [hactions]
  simp [callback_indices_append, callback_indices_sleep_on, hcb0, hcb2]

/-- Witness for C7: a concrete 3-step tour with the middle step skipped. -/
theorem run_tour_skip_middle_step_indices_witness :
    callback_indices (run_tour 1
      [⟨some "a", [], none, none, []⟩, ⟨some "b", [], none, none, []⟩,
       ⟨some "c", [], none, none, []⟩] ["b"] []).actions = [0, 2] ∧
    (run_tour 1
      [⟨some "a", [], none, none, []⟩, ⟨some "b", [], none, none, []⟩,
       ⟨some "c", [], none, none, []⟩] ["b"] []).error = none := by
  have h := run_tour_skip_middle_step_indices 1
    ⟨some "a", [], none, none, []⟩ ⟨some "b", [], none, none, []⟩
    ⟨some "c", [], none, none, []⟩ ["b"] [] "b" rfl (List.mem_cons_self _ _)
    (by intro t ht; injection ht with ht; subst ht; simp)
    (by intro t ht; injection ht with ht; subst ht; simp)
    (by intro h; simp at h) (by intro h; simp at h)
  exact ⟨h.2.1, h.2.2⟩

/-- C10: a tour step that sets `textinsert` without setting `element` makes
`run_tour_step` fail with an unbound-local-variable error at the
`element.send_keys(textinsert)` line, before the callback is invoked and
without any text being sent. -/
theorem run_tour_step_textinsert_requires_element (m : ℚ) (step : TourStep) (i : ℕ)
    (htext : step.textinsert.isSome = true) (helem : step.element = none) :
    (run_tour_step m step i).error = some "UnboundLocalError: local variable element" ∧
    callback_indices (run_tour_step m step i).actions = [] ∧
    ∀ a ∈ (run_tour_step m step i).actions, ∀ txt, a ≠ TourAction.sendKeys txt := by
  obtain ⟨txt0, ht⟩ := Option.isSome_iff_exists.mp htext
  refine ⟨?_, ?_, ?_⟩
  · simp [run_tour_step, ht, helem]
  · simp [run_tour_step, ht, helem, callback_indices_append, callback_indices_clicks,
      callback_indices]
  · intro a ha txt
    simp [run_tour_step, ht, helem] at ha
    obtain ⟨s, _, rfl⟩ := ha
    simp

/-- Witness for C10: a step with `textinsert` and no `element`. -/
theorem run_tour_step_textinsert_requires_element_witness :
    (run_tour_step 1 ⟨none, ["x"], none, some "hello", []⟩ 0).error =
      some "UnboundLocalError: local variable element" ∧
    callback_indices (run_tour_step 1 ⟨none, ["x"], none, some "hello", []⟩ 0).actions =
      [] := by
  have h := run_tour_step_textinsert_requires_element 1
    ⟨none, ["x"], none, some "hello", []⟩ 0 rfl rfl
  exact ⟨h.1, h.2.1⟩

theorem run_tour_step_action_shapes (m : ℚ) (step : TourStep) (i : ℕ) :
    ∀ a ∈ (run_tour_step m step i).actions,
      (∃ s, a = TourAction.click s (wait_length m WAIT_TYPES.JOB_COMPLETION)) ∨
      (∃ s, a = TourAction.waitForElement s (wait_length m WAIT_TYPES.JOB_COMPLETION)) ∨
      (∃ txt, a = TourAction.sendKeys txt) ∨ a = TourAction.callback i := by
  intro a ha
  cases ht : step.textinsert with
  | none =>
    cases he : step.element with
    | none =>
      simp [run_tour_step, ht, he, timeout_for] at ha
      rcases ha with ⟨s, _, rfl⟩ | rfl | ⟨s, _, rfl⟩
      · exact Or.inl ⟨s, rfl⟩
      · exact Or.inr (Or.inr (Or.inr rfl))
      · exact Or.inl ⟨s, rfl⟩
    | some sel =>
      simp [run_tour_step, ht, he, timeout_for] at ha
      rcases ha with ⟨s, _, rfl⟩ | rfl | rfl | ⟨s, _, rfl⟩
      · exact Or.inl ⟨s, rfl⟩
      · exact Or.inr (Or.inl ⟨sel, rfl⟩)
      · exact Or.inr (Or.inr (Or.inr rfl))
      · exact Or.inl ⟨s, rfl⟩
  | some txt =>
    cases he : step.element with
    | none =>
      simp [run_tour_step, ht, he, timeout_for] at ha
      rcases ha with ⟨s, _, rfl⟩
      exact Or.inl ⟨s, rfl⟩
    | some sel =>
      simp [run_tour_step, ht, he, timeout_for] at ha
      rcases ha with ⟨s, _, rfl⟩ | rfl | rfl | rfl | ⟨s, _, rfl⟩
      · exact Or.inl ⟨s, rfl⟩
      · exact Or.inr (Or.inl ⟨sel, rfl⟩)
      · exact Or.inr (Or.inr (Or.inl ⟨txt, rfl⟩))
      · exact Or.inr (Or.inr (Or.inr rfl))
      · exact Or.inl ⟨s, rfl⟩

theorem run_tour_go_action_shapes (m : ℚ) (skip_steps : List String)
    (sleep_on_steps : List (String × ℚ)) :
    ∀ steps i, ∀ a ∈ (run_tour_go m skip_steps sleep_on_steps steps i).actions,
      (∃ s, a = TourAction.click s (wait_length m WAIT_TYPES.JOB_COMPLETION)) ∨
      (∃ s, a = TourAction.waitForElement s (wait_length m WAIT_TYPES.JOB_COMPLETION)) ∨
      (∃ txt, a = TourAction.sendKeys txt) ∨ (∃ j, a = TourAction.callback j) ∨
      (∃ p ∈ sleep_on_steps, a = TourAction.sleep p.2) := by
  intro steps
  induction steps with
  | nil => intro i a ha; simp [run_tour_go] at ha
  | cons step rest ih =>
    intro i a ha
    rw [run_tour_go] at ha
    have hsleep : ∀ a ∈ sleep_on_actions sleep_on_steps step.title,
        (∃ p ∈ sleep_on_steps, a = TourAction.sleep p.2) :=
      sleep_on_actions_sleeps sleep_on_steps step.title
    have hstep : ∀ a ∈ (run_tour_step m step i).actions,
        (∃ s, a = TourAction.click s (wait_length m WAIT_TYPES.JOB_COMPLETION)) ∨
        (∃ s, a = TourAction.waitForElement s (wait_length m WAIT_TYPES.JOB_COMPLETION)) ∨
        (∃ txt, a = TourAction.sendKeys txt) ∨ (∃ j, a = TourAction.callback j) := by
      intro a ha
      rcases run_tour_step_action_shapes m step i a ha with h | h | h | h
      · exact Or.inl h
      · exact Or.inr (Or.inl h)
      · exact Or.inr (Or.inr (Or.inl h))
      · exact Or.inr (Or.inr (Or.inr ⟨i, h⟩))
    by_cases hskip : skip_steps.any (fun skip_step => step.title == some skip_step) = true
    · simp only [hskip, if_true] at ha
      simp only [List.mem_append] at ha
      rcases ha with ha | ha
      · exact Or.inr (Or.inr (Or.inr (Or.inr (hsleep a ha))))
      · exact ih (i + 1) a ha
    · simp only [hskip, if_false] at ha
      cases herr : (run_tour_step m step i).error with
      | some e =>
        simp [herr] at ha
        rcases ha with ha | ha
        · exact Or.inr (Or.inr (Or.inr (Or.inr (hsleep a ha))))
        · rcases hstep a ha with h | h | h | h
          · exact Or.inl h
          · exact Or.inr (Or.inl h)
          · exact Or.inr (Or.inr (Or.inl h))
          · exact Or.inr (Or.inr (Or.inr (Or.inl h)))
      | none =>
        simp [herr] at ha
        rcases ha with ha | ha | ha
        · exact Or.inr (Or.inr (Or.inr (Or.inr (hsleep a ha))))
        · rcases hstep a ha with h | h | h | h
          · exact Or.inl h
          · exact Or.inr (Or.inl h)
          · exact Or.inr (Or.inr (Or.inl h))
          · exact Or.inr (Or.inr (Or.inr (Or.inl h)))
        · exact ih (i + 1) a ha

/-- C8, as stated, is false on the code: it claims every timed sleep or wait
performed while interpreting a tour has a duration of the form
`default_length * multiplier` for some catalog wait type.  The
`sleep_on_steps` sleep in `run_tour` is a raw `time.sleep` of the configured
number of seconds, which does not scale with the multiplier.  Counterexample:
with multiplier 2 and a 7-second sleep override, the run sleeps 7 seconds,
and no catalog wait type has `default_length * 2 = 7`. -/
theorem tour_durations_catalog_counterexample :
    ¬ (∀ (m : ℚ) (steps : List TourStep) (skip_steps : List String)
        (sleep_on_steps : List (String × ℚ)),
        ∀ a ∈ (run_tour m steps skip_steps sleep_on_steps).actions,
        ∀ d, timed_duration a = some d →
          ∃ w ∈ WAIT_TYPES_catalog, d = wait_length m w) := by
  intro h
  have hmem : TourAction.sleep 7 ∈
      (run_tour 2 [⟨some "a", [], none, none, []⟩] [] [("a", 7)]).actions := by
    simp [run_tour, run_tour_go, run_tour_step, sleep_on_actions, List.lookup]
  obtain ⟨w, hw, heq⟩ := h 2 _ [] [("a", 7)] _ hmem 7 rfl
  simp only [WAIT_TYPES_catalog, List.mem_cons, List.not_mem_nil, or_false] at hw
  rcases hw with rfl | rfl | rfl | rfl | rfl | rfl | rfl | rfl | rfl <;>
    norm_num [wait_length, WAIT_TYPES.UX_RENDER, WAIT_TYPES.UX_TRANSITION,
      WAIT_TYPES.UX_POPUP, WAIT_TYPES.DATABASE_OPERATION, WAIT_TYPES.JOB_COMPLETION,
      WAIT_TYPES.GIE_SPAWN, WAIT_TYPES.SHED_SEARCH, WAIT_TYPES.REPO_INSTALL,
      WAIT_TYPES.HISTORY_POLL] at heq

/-- C8 amended: every element wait and click wait performed while
interpreting a tour times out after exactly
`wait_length m JOB_COMPLETION = 30 * m`, so all of them scale with the
multiplier; but `run_tour`'s per-title sleep overrides sleep for the raw
configured duration taken from `sleep_on_steps`, independent of the
multiplier. -/
theorem tour_timeouts_scale_with_multiplier (m : ℚ) (steps : List TourStep)
    (skip_steps : List String) (sleep_on_steps : List (String × ℚ)) :
    ∀ a ∈ (run_tour m steps skip_steps sleep_on_steps).actions,
      (∀ s timeout, a = TourAction.click s timeout →
        timeout = wait_length m WAIT_TYPES.JOB_COMPLETION) ∧
      (∀ s timeout, a = TourAction.waitForElement s timeout →
        timeout = wait_length m WAIT_TYPES.JOB_COMPLETION) ∧
      (∀ d, a = TourAction.sleep d → ∃ p ∈ sleep_on_steps, p.2 = d) := by
  intro a ha
  rcases run_tour_go_action_shapes m skip_steps sleep_on_steps steps 0 a ha with
    ⟨s, rfl⟩ | ⟨s, rfl⟩ | ⟨txt, rfl⟩ | ⟨j, rfl⟩ | ⟨p, hp, rfl⟩
  · exact ⟨fun s' t' ht' => by injection ht' with _ h; exact h.symm,
      fun s' t' ht' => by exact absurd ht' (by simp),
      fun d hd => by exact absurd hd (by simp)⟩
  · exact ⟨fun s' t' ht' => by exact absurd ht' (by simp),
      fun s' t' ht' => by injection ht' with _ h; exact h.symm,
      fun d hd => by exact absurd hd (by simp)⟩
  · exact ⟨fun s' t' ht' => by exact absurd ht' (by simp),
      fun s' t' ht' => by exact absurd ht' (by simp),
      fun d hd => by exact absurd hd (by simp)⟩
  · exact ⟨fun s' t' ht' => by exact absurd ht' (by simp),
      fun s' t' ht' => by exact absurd ht' (by simp),
      fun d hd => by exact absurd hd (by simp)⟩
  · exact ⟨fun s' t' ht' => by exact absurd ht' (by simp),
      fun s' t' ht' => by exact absurd ht' (by simp),
      fun d hd => ⟨p, hp, by injection hd with h⟩⟩

/-- Witness for the amended C8: a one-step tour with a preclick, an element
wait and a sleep override, at multiplier 2. -/
theorem tour_timeouts_scale_with_multiplier_witness :
    TourAction.click "x" 60 ∈
      (run_tour 2 [⟨some "a", ["x"], some "y", none, []⟩] [] [("a", 7)]).actions ∧
    (60 : ℚ) = wait_length 2 WAIT_TYPES.JOB_COMPLETION := by
  have hmem : TourAction.click "x" 60 ∈
      (run_tour 2 [⟨some "a", ["x"], some "y", none, []⟩] [] [("a", 7)]).actions := by
    norm_num [run_tour, run_tour_go, run_tour_step, sleep_on_actions, List.lookup,
      timeout_for, wait_length, WAIT_TYPES.JOB_COMPLETION]
  refine ⟨hmem, ?_⟩
  exact ((tour_timeouts_scale_with_multiplier 2
    [⟨some "a", ["x"], some "y", none, []⟩] [] [("a", 7)]
    (TourAction.click "x" 60) hmem).1 "x" 60 rfl)

end NavigatesGalaxy
